import Mathlib

/-!
Verification of the AMBuild incremental build engine core (database.py, task.py)
against its natural-language specification. The Python sources are shallowly
embedded: the sqlite tables and the two node caches become explicit record
fields, mutation becomes explicit state passing, fallible operations return
Option or Except, and external file-system observations (os.path.getmtime,
os.unlink) are modelled by a path-to-mtime table carried in the state.
-/

namespace AMBuild

/-- File modification times are floating-point seconds; modelled as rationals
(every finite double is a rational, and the code only stores and compares). -/
abbrev Mtime := Rat

/-- Association-list lookup keyed on the first component; models a Python dict
(the caches `node_cache_` and `path_cache_`) and getmtime over a directory tree. -/
def alookup {κ α : Type} [DecidableEq κ] (l : List (κ × α)) (k : κ) : Option α :=
  (l.find? (fun p => decide (p.1 = k))).map (·.2)

/-- Modelled from the spec: §3.1 gives the closed set of node type tags Source,
Output, Mkdir, Group, Command, Cxx, Copy, Symlink, and §4.1 mentions the
CopyArtifact tag; nodetypes.py itself is not under src/. -/
inductive NodeType where
  | Source
  | Output
  | Mkdir
  | Group
  | Command
  | Cxx
  | Copy
  | Symlink
  | CopyArtifact
deriving DecidableEq, Repr

/-- Modelled from the spec: §4.2, `is_command(type)` is true exactly for Command,
Cxx, Copy, Symlink (nodetypes.Entry.isCommand is not under src/). -/
def NodeType.isCommand : NodeType → Bool
  | .Command | .Cxx | .Copy | .Symlink => true
  | _ => false

/-- Command payload data: a Python list/dict such as an argv vector. -/
abbrev Data := List String

/-- Modelled from the spec: §3.1 and §9, `util.CompatPickle` serializes a command
payload into a byte string (util.py is not under src/); modelled as an explicit
length-prefixed character encoding into a byte list. -/
def CompatPickle (d : Data) : List Nat :=
  d.flatMap (fun s => s.length :: (s.toList.map Char.toNat))

/-- A value held in a data cell: either a raw in-memory payload (what add_command
stores and what util.Unpickle returns) or a pickled byte string (util.BlobType).
In Python, an equality test between a byte string and a list/dict is always false. -/
inductive BlobVal where
  | raw (d : Data)
  | bytes (b : List Nat)
deriving DecidableEq, Repr

/-- The result of Python `entry.blob == data` where `entry.blob` holds a BlobVal
(or None) and `data` is a raw payload (or None). Byte strings never compare equal
to list/dict payloads. -/
def pyEqBlobData : Option BlobVal → Option Data → Bool
  | none, none => true
  | some (BlobVal.raw d), some e => decide (d = e)
  | _, _ => false

/-- Python truthiness of a payload: None and the empty container are falsy
(the `if not data` tests in database.py). -/
def pyFalsyData : Option Data → Bool
  | none => true
  | some d => d.isEmpty

/-- In-memory node record (nodetypes.Entry, mirrored by the nodes table row):
id, type tag, path, stamp, dirty flag, generated bit, folder link (flattened to
the folder node id) and data payload. -/
structure Entry where
  id : Nat
  type : NodeType
  path : Option String
  stamp : Option Mtime
  dirty : Nat
  generated : Bool
  folder : Option Nat
  blob : Option BlobVal
deriving DecidableEq, Repr

/-- The Database state (database.py): the nodes table, the three edge tables
(each pair is (outgoing, incoming)), the on-disk file tree visible to the store
(path to mtime), and the two caches node_cache_ and path_cache_. -/
structure DB where
  nodes : List Entry
  edges : List (Nat × Nat)
  weak_edges : List (Nat × Nat)
  dynamic_edges : List (Nat × Nat)
  fs : List (String × Mtime)
  node_cache : List (Nat × Entry)
  path_cache : List (String × Entry)
deriving DecidableEq, Repr

/-- Database.unmark_dirty (database.py:397-415). The guard `if not stamp` is
Python truthiness, so both None and a supplied 0.0 take the no-stamp path. For a
command the stamp becomes 0.0; otherwise os.path.getmtime(entry.path) is sampled,
and on failure (file missing, or path None) the handler prints a warning but
control falls through to the update statement, which still clears the dirty bit
and writes whatever falsy value the stamp variable held. Returns the new
database, the new in-memory entry, and whether the warning was printed. The
Python caches hold the very object being mutated, so the value-passing model
rewrites the cached copies keyed by the entry id as well. -/
def unmark_dirty (db : DB) (entry : Entry) (stamp : Option Mtime) :
    DB × Entry × Bool :=
  let sampled : Option Mtime × Bool :=
    if stamp = none ∨ stamp = some 0 then
      if entry.type.isCommand then (some 0, false)
      else
        match entry.path.bind (alookup db.fs) with
        | some m => (some m, false)
        | none => (stamp, true)
    else (stamp, false)
  let e2 : Entry := { entry with dirty := 0, stamp := sampled.1 }
  let db2 : DB :=
    { db with
      nodes := db.nodes.map (fun r =>
        if r.id = entry.id then { r with dirty := 0, stamp := sampled.1 } else r),
      node_cache := db.node_cache.map (fun p => if p.1 = entry.id then (p.1, e2) else p),
      path_cache := db.path_cache.map (fun p => if p.2.id = entry.id then (p.1, e2) else p) }
  (db2, e2, sampled.2)

/-- Database.update_command (database.py:164-205). Serializes the payload, and if
type, folder and the `entry.blob == data` comparison all report no difference,
returns changed = false leaving everything untouched. Otherwise, under
refactoring it mutates the entry for the error printout and raises (the error
value carries that mutated entry); else it updates the row, sets the fields on
the entry (note: blob receives the pickled bytes, not the raw payload), marks it
dirty and returns changed = true. The cached copy of the entry is rewritten as
well, because the Python cache aliases the mutated object. -/
def update_command (db : DB) (entry : Entry) (type : NodeType)
    (folder : Option Nat) (data : Option Data) (refactoring : Bool) :
    Except Entry (DB × Entry × Bool) :=
  let blob : Option BlobVal :=
    if pyFalsyData data then none
    else data.map (fun d => BlobVal.bytes (CompatPickle d))
  if entry.type = type ∧ entry.folder = folder ∧ pyEqBlobData entry.blob data then
    .ok (db, entry, false)
  else if refactoring then
    .error { entry with type := type, folder := folder, blob := blob }
  else
    let e2 : Entry := { entry with type := type, folder := folder, blob := blob, dirty := 1 }
    let db2 : DB :=
      { db with
        nodes := db.nodes.map (fun r =>
          if r.id = entry.id then
            { r with type := type, folder := folder, blob := blob, dirty := 1 }
          else r),
        node_cache := db.node_cache.map (fun p => if p.1 = entry.id then (p.1, e2) else p) }
    .ok (db2, e2, true)

/-- The worker count computed in TaskMasterParent.__init__ (task.py:341-354) in
the jobs = 0 branch. Python `int(mp.cpu_count() * 1.5)` truncates toward zero;
the product is exact in double precision (cpu * 1.5 = 3 * cpu / 2 with 3 * cpu
far below 2 ^ 53), so it equals Nat floor division (3 * cpu_count) / 2. -/
def num_processes (cpu_count max_parallel : Nat) : Nat :=
  let n := if cpu_count = 1 then 2 else 3 * cpu_count / 2
  if n > max_parallel then max_parallel else n

/-- The worker-count formula exactly as the claim words it: the ceiling of 1.5
times cpu_count, with a minimum of 2, clamped to the number of tasks. -/
def claimed_num_processes (cpu_count max_parallel : Nat) : Nat :=
  min (max 2 ((3 * cpu_count + 1) / 2)) max_parallel

/-- TaskMasterParent.__init__ (task.py:332-354): num_processes is assigned only
inside the `jobs == 0` branch; for any other jobs value the comparison
`num_processes > max_parallel` reads an unassigned local, raising
UnboundLocalError, so construction fails (modelled as none). -/
def taskmaster_num_processes (jobs : Int) (cpu_count max_parallel : Nat) :
    Option Nat :=
  if jobs = 0 then some (num_processes cpu_count max_parallel) else none

/-- Database.import_node (database.py:301-327): asserts the id is not already
cached, resolves the folder link (flattened to folder ids in this model) and
the blob, inserts the node into node_cache_ and, when it has a path, into
path_cache_ (asserting that path is not already cached). Assertion failures
are modelled as none. Rows are modelled as carrying their id. -/
def import_node (db : DB) (e : Entry) : Option (DB × Entry) :=
  if (alookup db.node_cache e.id).isSome then none
  else
    match e.path with
    | none => some ({ db with node_cache := (e.id, e) :: db.node_cache }, e)
    | some p =>
      if (alookup db.path_cache p).isSome then none
      else
        some ({ db with
                node_cache := (e.id, e) :: db.node_cache,
                path_cache := (p, e) :: db.path_cache }, e)

/-- Database.query_node (database.py:277-283): a cache hit returns the cached
entry; otherwise the nodes table is read and the row imported. A missing row
makes import_node subscript None, a failure. -/
def query_node (db : DB) (id : Nat) : Option (DB × Entry) :=
  match alookup db.node_cache id with
  | some e => some (db, e)
  | none =>
    match db.nodes.find? (fun r => decide (r.id = id)) with
    | some row => import_node db row
    | none => none

/-- Database.query_path (database.py:285-299): a path cache hit returns the
cached entry; otherwise the nodes table is consulted, returning null when no
row has that path and importing the row otherwise. -/
def query_path (db : DB) (path : String) : Option (DB × Option Entry) :=
  match alookup db.path_cache path with
  | some e => some (db, some e)
  | none =>
    match db.nodes.find? (fun r => decide (r.path = some path)) with
    | none => some (db, none)
    | some row => (import_node db row).map (fun p => (p.1, some p.2))

/-- Resolves a list of node ids through query_node, threading the database
(the loop bodies of query_outgoing). -/
def query_node_list (db : DB) (ids : List Nat) : Option (DB × List Entry) :=
  ids.foldlM
    (fun acc i => (query_node acc.1 i).map (fun p => (p.1, acc.2 ++ [p.2])))
    (db, [])

/-- Database.query_outgoing (database.py:338-354): the union of strong and
dynamic outgoing edges of a node, each endpoint resolved through query_node.
The per-entry `node.outgoing` memo is not modelled: an empty set is falsy in
Python, so the memo is consulted only when non-empty, and re-reading the
tables returns the same entries; the Python set is modelled as the list of
entries in table order (strong first, then dynamic). -/
def query_outgoing (db : DB) (id : Nat) : Option (DB × List Entry) :=
  let strong_ids := (db.edges.filter (fun p => decide (p.2 = id))).map (·.1)
  let dynamic_ids := (db.dynamic_edges.filter (fun p => decide (p.2 = id))).map (·.1)
  query_node_list db (strong_ids ++ dynamic_ids)

/-- Database.drop_entry (database.py:470-483): deletes the node row and every
edge referencing the id in each of the three edge tables, then deletes the id
from node_cache_ (a KeyError, modelled as none, if it is not cached). The
path cache is not touched. -/
def drop_entry (db : DB) (entry : Entry) : Option DB :=
  let db2 : DB :=
    { db with
      nodes := db.nodes.filter (fun r => decide (r.id ≠ entry.id)),
      edges := db.edges.filter (fun p => decide (p.1 ≠ entry.id ∧ p.2 ≠ entry.id)),
      dynamic_edges :=
        db.dynamic_edges.filter (fun p => decide (p.1 ≠ entry.id ∧ p.2 ≠ entry.id)),
      weak_edges :=
        db.weak_edges.filter (fun p => decide (p.1 ≠ entry.id ∧ p.2 ≠ entry.id)) }
  if (alookup db2.node_cache entry.id).isSome then
    some { db2 with
           node_cache := db2.node_cache.filter (fun p => decide (p.1 ≠ entry.id)) }
  else none

/-- os.path.isabs on posix systems: the path begins with a slash. -/
def isAbsPath (p : String) : Bool :=
  match p.toList with
  | [] => false
  | c :: _ => c = '/'

/-- Database.drop_output (database.py:531-560): asserts the node is an Output
with a relative path, unlinks the on-disk file tolerating an already-missing
file (modelled as removing the path from the file table), then drop_entry. -/
def drop_output (db : DB) (output : Entry) : Option DB :=
  match output.path with
  | none => none
  | some p =>
    if output.type = NodeType.Output ∧ ¬ isAbsPath p then
      drop_entry { db with fs := db.fs.filter (fun q => decide (q.1 ≠ p)) } output
    else none

/-- Database.drop_command (database.py:562-567): queries the outgoing set of
the command, asserts each member is an Output and drops it, then drops the
command entry itself. -/
def drop_command (db : DB) (cmd : Entry) : Option DB := do
  let (db1, outs) ← query_outgoing db cmd.id
  let db2 ← outs.foldlM
    (fun d out => if out.type = NodeType.Output then drop_output d out else none)
    db1
  drop_entry db2 cmd

/-- The effect of drop_command as the spec words it (§4.1 and §3.3 invariant 3):
the strong outgoing Output nodes of the command are removed, their on-disk
files unlinked, and the command node is dropped together with every edge that
references the command or one of those outputs, in any of the three relations.
Stated as an explicit state transformer to be compared with drop_command. -/
def drop_command_spec (db : DB) (cmd : Entry) : DB :=
  let outIds := (db.edges.filter (fun p => decide (p.2 = cmd.id))).map (·.1)
  let outPaths := outIds.filterMap
    (fun i => (db.nodes.find? (fun r => decide (r.id = i))).bind (·.path))
  let gone : Nat → Bool := fun i => decide (i = cmd.id ∨ i ∈ outIds)
  { nodes := db.nodes.filter (fun r => ! gone r.id),
    edges := db.edges.filter (fun p => ! gone p.1 && ! gone p.2),
    dynamic_edges := db.dynamic_edges.filter (fun p => ! gone p.1 && ! gone p.2),
    weak_edges := db.weak_edges.filter (fun p => ! gone p.1 && ! gone p.2),
    fs := db.fs.filter (fun q => decide (q.1 ∉ outPaths)),
    node_cache := db.node_cache.filter (fun p => ! gone p.1),
    path_cache := db.path_cache }

/-- The state change of a single drop_output call written as explicit filters:
the output row, every edge touching it and its node_cache entry removed, its
on-disk file unlinked; the path cache untouched. -/
def dropOneFilter (d : DB) (out : Entry) : DB :=
  { nodes := d.nodes.filter (fun r => decide (r.id ≠ out.id)),
    edges := d.edges.filter (fun p => decide (p.1 ≠ out.id ∧ p.2 ≠ out.id)),
    dynamic_edges :=
      d.dynamic_edges.filter (fun p => decide (p.1 ≠ out.id ∧ p.2 ≠ out.id)),
    weak_edges :=
      d.weak_edges.filter (fun p => decide (p.1 ≠ out.id ∧ p.2 ≠ out.id)),
    fs := match out.path with
      | some p => d.fs.filter (fun q => decide (q.1 ≠ p))
      | none => d.fs,
    node_cache := d.node_cache.filter (fun p => decide (p.1 ≠ out.id)),
    path_cache := d.path_cache }

/-- The accumulated effect of dropping a list of outputs one after another. -/
def applyDrops : DB → List Entry → DB
  | d, [] => d
  | d, out :: rest => applyDrops (dropOneFilter d out) rest

/-- The command node of the C7 witness database. -/
def c7Cmd : Entry :=
  { id := 10, type := .Command, path := none, stamp := some 0, dirty := 1,
    generated := false, folder := none, blob := some (.raw ["link"]) }

/-- First output of the C7 witness command. -/
def c7Out1 : Entry :=
  { id := 11, type := .Output, path := some "o/a.o", stamp := some 2, dirty := 1,
    generated := false, folder := none, blob := none }

/-- Second output of the C7 witness command. -/
def c7Out2 : Entry :=
  { id := 12, type := .Output, path := some "o/b.o", stamp := some 3, dirty := 1,
    generated := false, folder := none, blob := none }

/-- An unrelated source node in the C7 witness database. -/
def c7Src : Entry :=
  { id := 13, type := .Source, path := some "/s/m.c", stamp := some 4, dirty := 0,
    generated := false, folder := none, blob := none }

/-- The C7 witness database: a command with two strong outputs, a strong input,
a weak edge and a dynamic edge touching one output, files on disk, and fully
coherent caches. -/
def c7DB : DB :=
  { nodes := [c7Cmd, c7Out1, c7Out2, c7Src],
    edges := [(11, 10), (12, 10), (10, 13)],
    weak_edges := [(10, 13)],
    dynamic_edges := [(13, 12)],
    fs := [("o/a.o", 2), ("o/b.o", 3), ("/s/m.c", 4)],
    node_cache := [(10, c7Cmd), (11, c7Out1), (12, c7Out2), (13, c7Src)],
    path_cache := [("o/a.o", c7Out1), ("o/b.o", c7Out2), ("/s/m.c", c7Src)] }

/-! ### Task master child (task.py TaskMasterChild)

The scheduler process, modelled as a state machine. Workers and tasks are
identified by numbers; Python sets are modelled as lists; `task_graph` is a
Python list used as a stack (append at the end, pop from the end). Messages
sent on channels are collected in an ordered list of observable outputs. -/

/-- An observable message of the task master child: what it sends upward on its
channel (`completed` with a status) or to a worker (a `task` dispatch), plus the
procman.close events on worker processes. -/
inductive TMMsg where
  | completedOk
  | completedFailed
  | completedCrashed (task_id : Nat)
  | closeWorker (child : Nat)
  | dispatch (child : Nat) (task_id : Nat)
deriving DecidableEq, Repr

/-- The static part of a Task record (task.py:11-23) needed by the scheduler:
its id and the ids of its outgoing tasks. -/
structure TMTask where
  id : Nat
  outgoing : List Nat
deriving DecidableEq, Repr

/-- TaskMasterChild state (task.py:191-208): the ready queue `task_graph`, the
`outstanding` map task id to worker, the `idle` worker set, the `build_failed`
flag, plus the task registry and the mutable per-task `incoming` sets that in
Python live on the shared Task objects. -/
structure TMState where
  tasks : List TMTask
  incoming : List (Nat × List Nat)
  task_graph : List Nat
  outstanding : List (Nat × Nat)
  idle : List Nat
  build_failed : Bool
deriving DecidableEq, Repr

/-- TaskMasterChild.close_idle (task.py:248-251): close every idle worker and
empty the idle set. -/
def close_idle (st : TMState) : TMState × List TMMsg :=
  ({ st with idle := [] }, st.idle.map TMMsg.closeWorker)

/-- TaskMasterChild.buildFailed (task.py:210-213): on the first failure, set
build_failed and close the idle workers; afterwards a no-op. -/
def buildFailed (st : TMState) : TMState × List TMMsg :=
  if st.build_failed then (st, [])
  else close_idle { st with build_failed := true }

/-- TaskMasterChild.onWorkerReady (task.py:253-288). With an empty ready queue
the worker is either parked idle (work still outstanding) or everything is
closed and `completed ok` is sent. Then, if the build failed, the worker is
closed without work. Otherwise one task is popped from the end of the queue,
dispatched, and recorded as outstanding. Returns the flag the Python method
returns. -/
def onWorkerReady (st : TMState) (child : Nat) : TMState × List TMMsg × Bool :=
  if st.task_graph.isEmpty then
    if ! st.outstanding.isEmpty then
      ({ st with idle := st.idle ++ [child] }, [], false)
    else
      let p := close_idle st
      (p.1, TMMsg.closeWorker child :: p.2 ++ [TMMsg.completedOk], false)
  else if st.build_failed then
    (st, [TMMsg.closeWorker child], false)
  else
    match st.task_graph.getLast? with
    | none => (st, [], false)
    | some tid =>
      ({ st with
         task_graph := st.task_graph.dropLast,
         outstanding := st.outstanding ++ [(tid, child)] },
       [TMMsg.dispatch child tid], true)

/-- The body of the while loop at task.py:243-246, with explicit fuel: pop an
idle worker and offer it work until the queue or the idle set is empty or a
dispatch is refused. The fuel passed by the caller is the current idle count,
which bounds the iterations because a dispatch never grows the idle set. -/
def drainIdle : Nat → TMState → List TMMsg → TMState × List TMMsg
  | 0, st, acc => (st, acc)
  | Nat.succ n, st, acc =>
    if st.task_graph.isEmpty || st.idle.isEmpty then (st, acc)
    else
      match st.idle with
      | [] => (st, acc)
      | c :: rest =>
        let st1 := { st with idle := rest }
        let r := onWorkerReady st1 c
        if r.2.2 then drainIdle n r.1 (acc ++ r.2.1) else (r.1, acc ++ r.2.1)

/-- One iteration of the release loop at task.py:235-238: remove the finished
task from the incoming set of one outgoing task (a KeyError, modelled as none,
if absent) and push the outgoing task onto the ready queue when its incoming
set becomes empty. -/
def releaseStep (st : TMState) (tid og : Nat) : Option TMState :=
  match alookup st.incoming og with
  | none => none
  | some inc =>
    if tid ∈ inc then
      let inc2 := inc.erase tid
      let st1 :=
        { st with
          incoming := st.incoming.map (fun p => if p.1 = og then (og, inc2) else p) }
      if inc2.isEmpty then some { st1 with task_graph := st1.task_graph ++ [og] }
      else some st1
    else none

/-- TaskMasterChild.onWorkerRanTask (task.py:219-246). ok = false: report
`completed failed` upward, close the reporting worker, buildFailed. ok = true:
look the task up in outstanding (KeyError if absent), remove it, release its
outgoing tasks, offer work to the now-free worker and then to idle workers
while any remain and dispatching succeeds. -/
def onWorkerRanTask (st : TMState) (child : Nat) (ok : Bool) (task_id : Nat) :
    Option (TMState × List TMMsg) :=
  if ! ok then
    let p := buildFailed st
    some (p.1, TMMsg.completedFailed :: TMMsg.closeWorker child :: p.2)
  else do
    let worker ← alookup st.outstanding task_id
    let st1 := { st with outstanding := st.outstanding.filter (fun p => decide (p.1 ≠ task_id)) }
    let task ← st1.tasks.find? (fun t => decide (t.id = task_id))
    let st2 ← task.outgoing.foldlM (fun s og => releaseStep s task_id og) st1
    let r := onWorkerReady st2 worker
    let d := drainIdle r.1.idle.length r.1 r.2.1
    some (d.1, d.2)

/-- TaskMasterChild.onWorkerDied (task.py:298-316): on an abnormal death, if the
dead worker held an outstanding task, onWorkerCrashed reports `completed
crashed` for it and calls buildFailed; the worker is discarded from the idle
set. The final are-any-children-alive bookkeeping only cancels the message
pump and is not modelled. -/
def onWorkerDied (st : TMState) (child : Nat) (normal : Bool) :
    TMState × List TMMsg :=
  let p :=
    if ! normal then
      match st.outstanding.find? (fun q => decide (q.2 = child)) with
      | some q =>
        let b := buildFailed st
        (b.1, TMMsg.completedCrashed q.1 :: b.2)
      | none => (st, [])
    else (st, [])
  ({ p.1 with idle := p.1.idle.erase child }, p.2)

/-- The events the task master child reacts to: a `ranTask` report, a `ready`
message, or a worker process dying. -/
inductive TMEvent where
  | ranTask (child : Nat) (ok : Bool) (task_id : Nat)
  | ready (child : Nat)
  | died (child : Nat) (normal : Bool)
deriving DecidableEq, Repr

/-- The task master child step function: one incoming event, the next state and
the ordered messages sent while handling it. -/
def tm_step (st : TMState) (ev : TMEvent) : Option (TMState × List TMMsg) :=
  match ev with
  | .ranTask c ok tid => onWorkerRanTask st c ok tid
  | .ready c =>
    let r := onWorkerReady st c
    some (r.1, r.2.1)
  | .died c normal => some (onWorkerDied st c normal)

/-- States reachable from a start state by any sequence of successful steps. -/
inductive TMReach : TMState → TMState → Prop where
  | refl (st : TMState) : TMReach st st
  | step {st1 st2 st3 : TMState} {ev : TMEvent} {ms : List TMMsg} :
      TMReach st1 st2 → tm_step st2 ev = some (st3, ms) → TMReach st1 st3

/-! ### Worker child (task.py WorkerChild) -/

/-- A `task` message from the master (task.py:278-285). -/
structure WTaskMsg where
  task_id : Nat
  task_type : String
  task_data : Data
  task_folder : Option String
  task_outputs : List String
deriving DecidableEq, Repr

/-- What a task body (doCommand / doCompile, task.py:106-161) reports back:
success flag, captured stdout/stderr and, for compiles, discovered deps. -/
structure WResponse where
  ok : Bool
  stdout : String
  stderr : String
  deps : Option (List String)
deriving DecidableEq, Repr

/-- The fast `ranTask` acknowledgment (task.py:81-85). -/
structure WRanTask where
  ok : Bool
  task_id : Nat
deriving DecidableEq, Repr

/-- The `results` message sent on the side channel (task.py:95-104). -/
structure WResults where
  pid : Nat
  task_id : Nat
  ok : Bool
  stdout : String
  stderr : String
  deps : Option (List String)
  updates : List (String × Mtime)
deriving DecidableEq, Repr

/-- WorkerChild.receiveTask (task.py:60-104). Unlinks every declared output
(ENOENT tolerated), runs the task body selected by task_type (a KeyError,
modelled as none, for an unknown type; the body itself is the parameter
`exec`, and `fsAfter` is the file tree after it ran). The `ranTask`
acknowledgment is sent first; then, only when the task succeeded, each output
is stat-ed to collect (path, new mtime) updates, a failed task contributing an
empty updates list. A getmtime failure (missing output) raises after `ranTask`
was already sent, so the results message is never produced (inner none). -/
def worker_receiveTask (pid : Nat) (fs0 : List (String × Mtime))
    (exec : WTaskMsg → WResponse) (fsAfter : List (String × Mtime))
    (m : WTaskMsg) : Option (WRanTask × Option WResults) :=
  let _task_folder := m.task_folder.getD "."
  let _fs1 := fs0.filter (fun p => decide (p.1 ∉ m.task_outputs))
  if m.task_type = "cxx" ∨ m.task_type = "cmd" then
    let resp := exec m
    let ran : WRanTask := { ok := resp.ok, task_id := m.task_id }
    let new_timestamps : Option (List (String × Mtime)) :=
      if resp.ok then
        m.task_outputs.mapM (fun o => (alookup fsAfter o).map (fun t => (o, t)))
      else some []
    some (ran, new_timestamps.map (fun u =>
      { pid := pid, task_id := m.task_id, ok := resp.ok, stdout := resp.stdout,
        stderr := resp.stderr, deps := resp.deps, updates := u }))
  else none

/-! ### Task master parent (task.py TaskMasterParent) -/

/-- A `results` message as received by TaskMasterParent.processResults. -/
structure PResultsMsg where
  ok : Bool
  stdout : String
  stderr : String
  pid : Nat
  task_id : Nat
  updates : List (String × Mtime)
deriving DecidableEq, Repr

/-- Observable actions of the parent while processing results: console writes
and the graceful shutdown of the worker pool. -/
inductive PAction where
  | writeStdout (pid : Nat) (s : String)
  | writeStderr (s : String)
  | shutdownWorkers
deriving DecidableEq, Repr

/-- TaskMasterParent state: its build_failed flag and the build database owned
by the builder, which processResults is specified to update. -/
structure ParentState where
  build_failed : Bool
  db : DB
deriving DecidableEq, Repr

/-- TaskMasterParent.terminateBuild (task.py:390-396) on the graceful path: the
first call sets build_failed and shuts the worker pool down. -/
def terminateBuild (st : ParentState) : ParentState × List PAction :=
  if st.build_failed then (st, [])
  else ({ st with build_failed := true }, [PAction.shutdownWorkers])

/-- TaskMasterParent.processResults (task.py:375-388): prints stdout tagged
with the worker pid and stderr unmodified when non-empty; a failed result
terminates the build gracefully. For a successful result it reads task_id and
updates but the database update call is commented out, so the function returns
with the database untouched. -/
def processResults (st : ParentState) (m : PResultsMsg) :
    ParentState × List PAction :=
  let a1 : List PAction :=
    if m.stdout.length ≠ 0 then [PAction.writeStdout m.pid m.stdout] else []
  let a2 : List PAction :=
    if m.stderr.length ≠ 0 then [PAction.writeStderr m.stderr] else []
  if ! m.ok then
    let p := terminateBuild st
    (p.1, a1 ++ a2 ++ p.2)
  else
    let _task_id := m.task_id
    let _updates := m.updates
    (st, a1 ++ a2)

/-! ### Concrete instances used by the claim theorems -/

/-- A dirty Output node whose on-disk file is missing (stat will fail). -/
def uaEntry : Entry :=
  { id := 1, type := .Output, path := some "objs/a.o", stamp := some 5,
    dirty := 1, generated := false, folder := none, blob := none }

/-- A database holding only uaEntry, cached, with an empty file tree. -/
def uaDB : DB :=
  { nodes := [uaEntry], edges := [], weak_edges := [], dynamic_edges := [],
    fs := [], node_cache := [(1, uaEntry)], path_cache := [("objs/a.o", uaEntry)] }

/-- A clean Source node whose file exists with mtime 7. -/
def c9wEntry : Entry :=
  { id := 2, type := .Source, path := some "/src/a.c", stamp := some 1,
    dirty := 1, generated := false, folder := none, blob := none }

/-- A database holding only c9wEntry, cached, with its file present. -/
def c9wDB : DB :=
  { nodes := [c9wEntry], edges := [], weak_edges := [], dynamic_edges := [],
    fs := [("/src/a.c", 7)], node_cache := [(2, c9wEntry)],
    path_cache := [("/src/a.c", c9wEntry)] }

/-- An Output node with a path, fully cached, to be dropped. -/
def c3Entry : Entry :=
  { id := 4, type := .Output, path := some "bin/app", stamp := some 3,
    dirty := 0, generated := false, folder := none, blob := none }

/-- A database holding c3Entry with one strong edge and both caches filled. -/
def c3DB : DB :=
  { nodes := [c3Entry], edges := [(4, 2)], weak_edges := [], dynamic_edges := [],
    fs := [("bin/app", 3)], node_cache := [(4, c3Entry)],
    path_cache := [("bin/app", c3Entry)] }

/-- The payload handed to update_command twice in the C4 scenario. -/
def c4Data : Data := ["cc", "-o", "a"]

/-- A command node whose current payload differs from c4Data. -/
def c4Entry0 : Entry :=
  { id := 3, type := .Command, path := none, stamp := some 0, dirty := 0,
    generated := false, folder := none, blob := some (.raw ["cc", "-c"]) }

/-- The database holding c4Entry0, cached. -/
def c4DB0 : DB :=
  { nodes := [c4Entry0], edges := [], weak_edges := [], dynamic_edges := [],
    fs := [], node_cache := [(3, c4Entry0)], path_cache := [] }

/-- c4Entry0 after the first update: the blob cell now holds pickled bytes. -/
def c4Entry1 : Entry :=
  { c4Entry0 with blob := some (.bytes (CompatPickle c4Data)), dirty := 1 }

/-- The database after the first update of the C4 scenario. -/
def c4DB1 : DB :=
  { c4DB0 with nodes := [c4Entry1], node_cache := [(3, c4Entry1)] }

/-- A small scheduler state for the C5 witness: one pending task, one
outstanding task held by worker 0, worker 1 idle, not yet failed. -/
def c5St : TMState :=
  { tasks := [{ id := 5, outgoing := [] }, { id := 6, outgoing := [5] }],
    incoming := [(5, [])], task_graph := [5], outstanding := [(6, 0)],
    idle := [1], build_failed := false }

/-- c5St after the failure report: failed, idle emptied. -/
def c5St2 : TMState := { c5St with build_failed := true, idle := [] }

/-- The messages sent while handling the failure report in the C5 witness. -/
def c5Ms : List TMMsg :=
  [TMMsg.completedFailed, TMMsg.closeWorker 0, TMMsg.closeWorker 1]

/-- A concrete failing task message for the C10 witness. -/
def c10Msg : WTaskMsg :=
  { task_id := 9, task_type := "cmd", task_data := ["false"],
    task_folder := none, task_outputs := ["x.o"] }

/-- A task body that always fails, for the C10 witness. -/
def c10Exec : WTaskMsg → WResponse :=
  fun _ => { ok := false, stdout := "", stderr := "err", deps := none }

/-! ### Claim theorems -/

/-- C1: `TaskMasterParent.processResults` never touches the database. For every
incoming results message, successful or not, the builder database after
processResults equals the one before: the unmark_dirty timestamp persistence
and dynamic-edge reconciliation the claim requires never run (the update call
is commented out at task.py:387-388), while TaskMasterChild.onWorkerRanTask
releases downstream tasks on the earlier ranTask message alone, so no database
mutation precedes the release. -/
theorem C1_processResults_applies_no_db_mutation (st : ParentState)
    (m : PResultsMsg) : (processResults st m).1.db = st.db := by
  unfold processResults terminateBuild
  by_cases h : m.ok <;> by_cases h2 : st.build_failed <;> simp [h, h2]

/-- C2: evaluating unmark_dirty at the failing input (an artifact node, no
stamp supplied, mtime sampling fails because the file is missing). The warning
is printed (final component true), but the node is not left dirty: the dirty
bit is cleared and the stamp nulled in the table row, the in-memory entry and
the caches, contradicting the claim that both stay unchanged. -/
theorem C2_unmark_dirty_stat_failure_still_clears :
    unmark_dirty uaDB uaEntry none =
      ({ uaDB with
         nodes := [{ uaEntry with dirty := 0, stamp := none }],
         node_cache := [(1, { uaEntry with dirty := 0, stamp := none })],
         path_cache := [("objs/a.o", { uaEntry with dirty := 0, stamp := none })] },
       { uaEntry with dirty := 0, stamp := none }, true) := by
  decide

/-- C3: evaluating drop_entry and query_path at the failing input. drop_entry
removes the node row, its edges and its node_cache entry but leaves path_cache
untouched, so query_path on the dropped path still returns the deleted node
instead of null: the two caches are not kept coherent on delete. -/
theorem C3_drop_entry_leaves_stale_path_cache :
    drop_entry c3DB c3Entry =
        some { nodes := [], edges := [], weak_edges := [], dynamic_edges := [],
               fs := [("bin/app", 3)], node_cache := [],
               path_cache := [("bin/app", c3Entry)] } ∧
      ((drop_entry c3DB c3Entry).bind (fun db2 => query_path db2 "bin/app")).map
          (fun p => p.2) = some (some c3Entry) := by
  decide

/-- C4: evaluating update_command at the failing input. The first call on a
command whose payload differs reports changed and stores the pickled bytes
into the entry blob cell; the second call with the identical type, folder and
data therefore compares bytes against the raw payload, reports changed again
and re-marks the node dirty where the claim requires no change, and with
refactoring = true the same unchanged call raises the refactoring error. -/
theorem C4_update_command_not_idempotent :
    update_command c4DB0 c4Entry0 .Command none (some c4Data) false =
        .ok (c4DB1, c4Entry1, true) ∧
      update_command c4DB1 c4Entry1 .Command none (some c4Data) false =
        .ok (c4DB1, c4Entry1, true) ∧
      update_command c4DB1 c4Entry1 .Command none (some c4Data) true =
        .error c4Entry1 :=
  ⟨rfl, rfl, rfl⟩

/-- C6 counterexample: with cpu_count = 3 and five pending tasks the code
computes int(3 * 1.5) = 4 worker processes, while the claimed formula (ceiling
of 1.5 times cpu_count, minimum 2, clamped to the task count) gives 5. -/
theorem C6_counterexample :
    num_processes 3 5 = 4 ∧ claimed_num_processes 3 5 = 5 := by
  decide

/-- C6 (amended): when the jobs option is 0, for every cpu_count at least 1
the worker count is the floor (not the ceiling) of 1.5 times cpu_count, with a
minimum of 2 coming from the cpu_count = 1 special case, clamped to the number
of tasks. -/
theorem C6_num_processes_floor (cpu mp : Nat) (h : 1 ≤ cpu) :
    num_processes cpu mp = min (max 2 (3 * cpu / 2)) mp := by
  have hEq : num_processes cpu mp =
      (if (if cpu = 1 then 2 else 3 * cpu / 2) > mp then mp
       else (if cpu = 1 then 2 else 3 * cpu / 2)) := rfl
  rw [hEq]
  split_ifs <;> omega

/-- C6 witness: the amended formula evaluated at cpu_count 4 and 100 tasks. -/
theorem C6_num_processes_floor_witness :
    1 ≤ 4 ∧ num_processes 4 100 = min (max 2 (3 * 4 / 2)) 100 :=
  ⟨by decide, C6_num_processes_floor 4 100 (by decide)⟩

/-- C8: constructing the task master resolves a worker count exactly when the
jobs option is 0; any nonzero jobs value leaves num_processes unassigned and
the construction fails with UnboundLocalError. -/
theorem C8_jobs_zero_required (jobs : Int) (cpu mp : Nat) :
    (taskmaster_num_processes jobs cpu mp).isSome = true ↔ jobs = 0 := by
  unfold taskmaster_num_processes
  by_cases h : jobs = 0 <;> simp [h]

/-- C8 witness: jobs = 0 succeeds and jobs = 3 fails, at cpu 4 and 8 tasks. -/
theorem C8_jobs_zero_required_witness :
    (taskmaster_num_processes 0 4 8).isSome = true ∧
      (taskmaster_num_processes 3 4 8).isSome ≠ true :=
  ⟨(C8_jobs_zero_required 0 4 8).mpr rfl,
   fun hs => by exact absurd ((C8_jobs_zero_required 3 4 8).mp hs) (by decide)⟩

/-- C9 counterexample: for an artifact whose mtime sampling fails, a supplied
stamp of 0.0 is not treated identically to no stamp at all: the fall-through
after the failed stat stores the supplied 0.0 as the new stamp, while the
no-stamp call stores null, so the two results differ. -/
theorem C9_counterexample :
    unmark_dirty uaDB uaEntry (some 0) ≠ unmark_dirty uaDB uaEntry none := by
  decide

/-- C9 (amended): a supplied stamp of 0.0 is falsy and takes the no-stamp
path: for a command node both calls store 0.0, and for an artifact whose mtime
sampling succeeds both calls store the sampled mtime; only when sampling fails
do the two calls differ, and then only in the stamp value written. -/
theorem C9_zero_stamp_is_falsy (db : DB) (e : Entry)
    (h : e.type.isCommand = true ∨ (e.path.bind (alookup db.fs)).isSome = true) :
    unmark_dirty db e (some 0) = unmark_dirty db e none ∧
      (unmark_dirty db e (some 0)).2.1.stamp =
        (if e.type.isCommand then some 0 else e.path.bind (alookup db.fs)) := by
  unfold unmark_dirty
  by_cases hc : e.type.isCommand
  · simp [hc]
  · simp only [hc, Bool.false_eq_true, false_or] at h
    obtain ⟨m, hm⟩ := Option.isSome_iff_exists.mp h
    simp [hc, hm]

/-- C9 witness: the amended statement at a Source node whose file has mtime 7. -/
theorem C9_zero_stamp_is_falsy_witness :
    (c9wEntry.type.isCommand = true ∨
        (c9wEntry.path.bind (alookup c9wDB.fs)).isSome = true) ∧
      (unmark_dirty c9wDB c9wEntry (some 0) = unmark_dirty c9wDB c9wEntry none ∧
        (unmark_dirty c9wDB c9wEntry (some 0)).2.1.stamp =
          (if c9wEntry.type.isCommand then some 0
           else c9wEntry.path.bind (alookup c9wDB.fs))) :=
  ⟨by decide, C9_zero_stamp_is_falsy c9wDB c9wEntry (by decide)⟩

/-- C10: whenever the task body reports failure, the worker still sends its
results message and the updates list in it is empty; declared outputs are
stat-ed for new mtimes only after a success. -/
theorem C10_failed_task_sends_empty_updates (pid : Nat)
    (fs0 : List (String × Mtime)) (exec : WTaskMsg → WResponse)
    (fsAfter : List (String × Mtime)) (m : WTaskMsg)
    (htype : m.task_type = "cxx" ∨ m.task_type = "cmd")
    (hok : (exec m).ok = false) :
    worker_receiveTask pid fs0 exec fsAfter m =
      some ({ ok := false, task_id := m.task_id },
        some { pid := pid, task_id := m.task_id, ok := false,
               stdout := (exec m).stdout, stderr := (exec m).stderr,
               deps := (exec m).deps, updates := [] }) := by
  unfold worker_receiveTask
  rw [if_pos htype]
  simp [hok]

/-! ### Supporting lemmas for C5: once the build has failed, nothing is
dispatched any more. The only dispatch site (task.py:276-288) sits behind the
build_failed guard in onWorkerReady. -/

/-- onWorkerReady preserves the failure flag and emits no dispatch once the
build has failed. -/
theorem onWorkerReady_failed (st : TMState) (c : Nat)
    (h : st.build_failed = true) :
    (onWorkerReady st c).1.build_failed = true ∧
      ∀ w t, TMMsg.dispatch w t ∉ (onWorkerReady st c).2.1 := by
  unfold onWorkerReady close_idle
  by_cases h1 : st.task_graph.isEmpty
  · by_cases h2 : st.outstanding.isEmpty
    · simp [h1, h2, h]
    · simp [h1, h2, h]
  · simp [h1, h]

/-- drainIdle preserves the failure flag and adds no dispatch to a
dispatch-free accumulator once the build has failed. -/
theorem drainIdle_failed (n : Nat) :
    ∀ (st : TMState) (acc : List TMMsg), st.build_failed = true →
      (∀ w t, TMMsg.dispatch w t ∉ acc) →
      (drainIdle n st acc).1.build_failed = true ∧
        ∀ w t, TMMsg.dispatch w t ∉ (drainIdle n st acc).2 := by
  induction n with
  | zero => intro st acc h hacc; exact ⟨h, hacc⟩
  | succ n ih =>
    intro st acc h hacc
    unfold drainIdle
    by_cases hg : (st.task_graph.isEmpty || st.idle.isEmpty) = true
    · simp only [hg, if_true]; exact ⟨h, hacc⟩
    · simp only [hg, if_false]
      cases hid : st.idle with
      | nil => exact ⟨h, hacc⟩
      | cons c rest =>
        have hfail : ({ st with idle := rest } : TMState).build_failed = true := h
        have hr := onWorkerReady_failed { st with idle := rest } c hfail
        have haccr : ∀ w t,
            TMMsg.dispatch w t ∉ acc ++ (onWorkerReady { st with idle := rest } c).2.1 := by
          intro w t hmem
          rcases List.mem_append.mp hmem with hmem | hmem
          · exact hacc w t hmem
          · exact hr.2 w t hmem
        by_cases hok : (onWorkerReady { st with idle := rest } c).2.2 = true
        · simp only [hok, if_true]
          exact ih _ _ hr.1 haccr
        · simp only [hok, if_false]
          exact ⟨hr.1, haccr⟩

/-- releaseStep never changes the failure flag. -/
theorem releaseStep_build_failed {st st2 : TMState} {tid og : Nat}
    (h : releaseStep st tid og = some st2) :
    st2.build_failed = st.build_failed := by
  unfold releaseStep at h
  split at h
  · cases h
  · split at h
    · dsimp only at h
      split at h <;> (cases h; rfl)
    · cases h

/-- The release loop over the outgoing list never changes the failure flag. -/
theorem releaseFold_build_failed {l : List Nat} {tid : Nat} {st st2 : TMState}
    (h : l.foldlM (fun s og => releaseStep s tid og) st = some st2) :
    st2.build_failed = st.build_failed := by
  induction l generalizing st with
  | nil => cases h; rfl
  | cons a t ih =>
    rw [List.foldlM_cons] at h
    cases hr : releaseStep st tid a with
    | none => rw [hr] at h; cases h
    | some st1 =>
      rw [hr] at h
      exact (ih h).trans (releaseStep_build_failed hr)

/-- Once build_failed is set, every handler keeps it set and emits no task
dispatch. -/
theorem tm_step_failed {st st2 : TMState} {ev : TMEvent} {ms : List TMMsg}
    (h : st.build_failed = true) (hs : tm_step st ev = some (st2, ms)) :
    st2.build_failed = true ∧ ∀ w t, TMMsg.dispatch w t ∉ ms := by
  cases ev with
  | ready c =>
    have hr := onWorkerReady_failed st c h
    unfold tm_step at hs
    cases hs
    exact hr
  | died c normal =>
    simp only [tm_step] at hs
    unfold onWorkerDied at hs
    cases normal with
    | true =>
      simp only [Bool.not_true, Bool.false_eq_true, if_false] at hs
      try dsimp only at hs
      cases hs
      exact ⟨h, by simp⟩
    | false =>
      simp only [Bool.not_false, if_true] at hs
      cases hf : st.outstanding.find? (fun q => decide (q.2 = c)) with
      | some q =>
        rw [hf] at hs
        unfold buildFailed at hs
        rw [if_pos h] at hs
        try dsimp only at hs
        cases hs
        exact ⟨h, by simp⟩
      | none =>
        rw [hf] at hs
        try dsimp only at hs
        cases hs
        exact ⟨h, by simp⟩
  | ranTask c ok tid =>
    simp only [tm_step] at hs
    unfold onWorkerRanTask at hs
    cases ok with
    | false =>
      simp only [Bool.not_false, if_true] at hs
      unfold buildFailed at hs
      rw [if_pos h] at hs
      try dsimp only at hs
      cases hs
      exact ⟨h, by simp⟩
    | true =>
      simp only [Bool.not_true, Bool.false_eq_true, if_false] at hs
      try dsimp only at hs
      cases hw : alookup st.outstanding tid with
      | none => rw [hw] at hs; cases hs
      | some worker =>
        rw [hw] at hs
        simp only [Option.bind_eq_bind, Option.some_bind] at hs
        try dsimp only at hs
        cases ht : st.tasks.find? (fun t => decide (t.id = tid)) with
        | none => rw [ht] at hs; cases hs
        | some task =>
          rw [ht] at hs
          simp only [Option.bind_eq_bind, Option.some_bind] at hs
          cases hf : task.outgoing.foldlM (fun s og => releaseStep s tid og)
              { st with outstanding := st.outstanding.filter (fun p => decide (p.1 ≠ tid)) } with
          | none => rw [hf] at hs; cases hs
          | some stX =>
            rw [hf] at hs
            simp only [Option.bind_eq_bind, Option.some_bind] at hs
            have hX : stX.build_failed = true := by
              have h2 := releaseFold_build_failed hf
              simpa [h] using h2
            have hr := onWorkerReady_failed stX worker hX
            have hd := drainIdle_failed (onWorkerReady stX worker).1.idle.length
              (onWorkerReady stX worker).1 (onWorkerReady stX worker).2.1 hr.1
              (fun w t hmem => hr.2 w t hmem)
            try dsimp only at hs
            cases hs
            exact hd

/-- The failure flag is monotone along every reachable step sequence. -/
theorem tm_reach_failed {st st2 : TMState} (h : st.build_failed = true)
    (hr : TMReach st st2) : st2.build_failed = true := by
  induction hr with
  | refl => exact h
  | step hr hs ih => exact (tm_step_failed ih hs).1

/-- C5: after a ranTask report with ok = false, the task master marks
build_failed, sends completed-failed upward, closes the reporting worker and
every idle worker (the idle set becomes empty), and for the remainder of the
run no step from any reachable state ever dispatches a task to any worker. -/
theorem C5_failed_ranTask_stops_dispatch (st : TMState) (c tid : Nat)
    (st2 : TMState) (ms : List TMMsg) (h : st.build_failed = false)
    (hs : tm_step st (.ranTask c false tid) = some (st2, ms)) :
    st2.build_failed = true ∧ TMMsg.completedFailed ∈ ms ∧
      TMMsg.closeWorker c ∈ ms ∧ (∀ w ∈ st.idle, TMMsg.closeWorker w ∈ ms) ∧
      st2.idle = [] ∧
      ∀ st3 : TMState, TMReach st2 st3 →
        ∀ (ev : TMEvent) (st4 : TMState) (ms2 : List TMMsg),
          tm_step st3 ev = some (st4, ms2) →
          ∀ w t, TMMsg.dispatch w t ∉ ms2 := by
  have hstep : tm_step st (.ranTask c false tid) =
      some ({ st with build_failed := true, idle := [] },
        TMMsg.completedFailed :: TMMsg.closeWorker c ::
          st.idle.map TMMsg.closeWorker) := by
    unfold tm_step onWorkerRanTask buildFailed close_idle
    rw [h]
    simp
  rw [hstep] at hs
  cases hs
  refine ⟨rfl, by simp, by simp, ?_, rfl, ?_⟩
  · intro w hw
    simp only [List.mem_cons, List.mem_map]
    exact Or.inr (Or.inr ⟨w, hw, rfl⟩)
  · intro st3 hr ev st4 ms2 hs2
    have h3 : st3.build_failed = true := tm_reach_failed rfl hr
    exact (tm_step_failed h3 hs2).2

/-- C5 witness: at the concrete state, the failure report sets build_failed,
sends completed-failed, closes worker 0 and idle worker 1, empties the idle
set, and a subsequent ready message from worker 1 produces no dispatch even
though task 5 is still queued. -/
theorem C5_failed_ranTask_stops_dispatch_witness :
    c5St.build_failed = false ∧
      tm_step c5St (.ranTask 0 false 6) = some (c5St2, c5Ms) ∧
      c5St2.build_failed = true ∧ TMMsg.completedFailed ∈ c5Ms ∧
      TMMsg.closeWorker 1 ∈ c5Ms ∧ c5St2.idle = [] ∧
      TMMsg.dispatch 1 5 ∉ [TMMsg.closeWorker 1] := by
  have h : c5St.build_failed = false := rfl
  have hs : tm_step c5St (.ranTask 0 false 6) = some (c5St2, c5Ms) := by decide
  have hmain := C5_failed_ranTask_stops_dispatch c5St 0 6 c5St2 c5Ms h hs
  have hs2 : tm_step c5St2 (.ready 1) = some (c5St2, [TMMsg.closeWorker 1]) := by
    decide
  refine ⟨h, hs, hmain.1, hmain.2.1, ?_, hmain.2.2.2.2.1, ?_⟩
  · exact hmain.2.2.2.1 1 (by decide)
  · exact hmain.2.2.2.2.2 c5St2 (TMReach.refl c5St2) (.ready 1) c5St2
      [TMMsg.closeWorker 1] hs2 1 5

/-- C10 witness: the failing command task produces a results message whose
updates list is empty. -/
theorem C10_failed_task_sends_empty_updates_witness :
    (c10Msg.task_type = "cxx" ∨ c10Msg.task_type = "cmd") ∧
      worker_receiveTask 7 [] c10Exec [] c10Msg =
        some ({ ok := false, task_id := c10Msg.task_id },
          some { pid := 7, task_id := c10Msg.task_id, ok := false,
                 stdout := (c10Exec c10Msg).stdout,
                 stderr := (c10Exec c10Msg).stderr,
                 deps := (c10Exec c10Msg).deps, updates := [] }) :=
  ⟨Or.inr rfl,
   C10_failed_task_sends_empty_updates 7 [] c10Exec [] c10Msg (Or.inr rfl) rfl⟩

/-! ### Supporting lemmas for C7: drop_command refines its specification. -/

/-- Looking a key up in the id-keyed mirror of the nodes table is the same as
finding the first row with that id. -/
theorem alookup_map_id (l : List Entry) (i : Nat) :
    alookup (l.map (fun r => (r.id, r))) i =
      l.find? (fun r => decide (r.id = i)) := by
  unfold alookup
  rw [List.find?_map]
  have hc : ((fun p : Nat × Entry => decide (p.1 = i)) ∘ fun r : Entry => (r.id, r)) =
      fun r : Entry => decide (r.id = i) := rfl
  rw [hc]
  cases l.find? (fun r : Entry => decide (r.id = i)) <;> rfl

/-- Filtering an association list by a key predicate the key satisfies does not
change the lookup result. -/
theorem alookup_filter_keep {α : Type} (l : List (Nat × α)) (q : Nat → Bool)
    (k : Nat) (h : q k = true) :
    alookup (l.filter (fun p => q p.1)) k = alookup l k := by
  induction l with
  | nil => rfl
  | cons a t ih =>
    by_cases hak : a.1 = k
    · rw [List.filter_cons_of_pos (by rw [hak]; exact h)]
      unfold alookup
      rw [List.find?_cons_of_pos _ (by simpa using hak),
          List.find?_cons_of_pos _ (by simpa using hak)]
    · by_cases haq : q a.1 = true
      · rw [@List.filter_cons_of_pos (Nat × α) (fun p => q p.1) a t
          (by simpa using haq)]
        unfold alookup
        rw [List.find?_cons_of_neg _ (by simpa using hak),
            List.find?_cons_of_neg _ (by simpa using hak)]
        exact ih
      · rw [List.filter_cons_of_neg (by simpa using haq)]
        unfold alookup
        rw [List.find?_cons_of_neg _ (by simpa using hak)]
        exact ih

/-- The outgoing endpoints of a deduplicated edge table restricted to one
incoming endpoint are pairwise distinct. -/
theorem outIds_nodup (edges : List (Nat × Nat)) (c : Nat) (h : edges.Nodup) :
    ((edges.filter (fun p => decide (p.2 = c))).map (·.1)).Nodup := by
  refine List.Nodup.map_on ?_ (h.filter _)
  intro x hx y hy hxy
  have hx2 : x.2 = c := by simpa using (List.mem_filter.mp hx).2
  have hy2 : y.2 = c := by simpa using (List.mem_filter.mp hy).2
  cases x
  cases y
  simp_all

/-- A mapM over an everywhere-defined partial function succeeds. -/
theorem mapM_isSome {α β : Type} (f : α → Option β) :
    ∀ l : List α, (∀ a ∈ l, (f a).isSome = true) → ∃ bs, l.mapM f = some bs := by
  intro l
  induction l with
  | nil => intro _; exact ⟨[], rfl⟩
  | cons a t ih =>
    intro h
    obtain ⟨b, hb⟩ := Option.isSome_iff_exists.mp (h a (List.mem_cons_self a t))
    obtain ⟨bs, hbs⟩ := ih (fun x hx => h x (List.mem_cons_of_mem _ hx))
    refine ⟨b :: bs, ?_⟩
    rw [List.mapM_cons, hb, hbs]
    rfl

/-- The rows found for a list of ids: their ids are the requested ids in
order, each is a row of the table, and their paths line up with per-id row
lookups. -/
theorem mapM_find_spec (l : List Entry) (ids : List Nat) :
    ∀ es : List Entry,
      ids.mapM (fun i => l.find? (fun r => decide (r.id = i))) = some es →
      es.map (fun e => e.id) = ids ∧ (∀ e ∈ es, e ∈ l) ∧
        es.filterMap (fun e => e.path) =
          ids.filterMap
            (fun i => (l.find? (fun r => decide (r.id = i))).bind (·.path)) := by
  induction ids with
  | nil =>
    intro es h
    simp only [List.mapM_nil, pure, Option.some.injEq] at h
    subst h
    simp
  | cons i t ih =>
    intro es h
    rw [List.mapM_cons] at h
    cases hf : l.find? (fun r => decide (r.id = i)) with
    | none => rw [hf] at h; simp at h
    | some e =>
      rw [hf] at h
      cases hrest : t.mapM (fun i => l.find? (fun r => decide (r.id = i))) with
      | none => rw [hrest] at h; simp at h
      | some es2 =>
        rw [hrest] at h
        simp only [Option.bind_eq_bind, Option.some_bind, pure,
          Option.some.injEq] at h
        subst h
        obtain ⟨h1, h2, h3⟩ := ih es2 hrest
        have hid : e.id = i := by simpa using List.find?_some hf
        refine ⟨by simp [h1, hid], ?_, ?_⟩
        · intro x hx
          rcases List.mem_cons.mp hx with hx | hx
          · subst hx; exact List.mem_of_find?_eq_some hf
          · exact h2 x hx
        · cases hp : e.path with
          | none =>
            rw [List.filterMap_cons_none hp, h3, List.filterMap_cons_none]
            rw [hf]
            simpa using hp
          | some s =>
            rw [List.filterMap_cons_some hp, h3, ← List.filterMap_cons_some
              (f := fun i => (l.find? (fun r => decide (r.id = i))).bind (·.path))
              (l := t)]
            rw [hf]
            simpa using hp

/-- Folding query_node over a fully cached id list threads the database
unchanged and appends exactly the cached entries. -/
theorem query_node_list_cached (ids : List Nat) :
    ∀ (db : DB) (es acc : List Entry),
      ids.mapM (fun i => alookup db.node_cache i) = some es →
      ids.foldlM
          (fun acc i => (query_node acc.1 i).map (fun p => (p.1, acc.2 ++ [p.2])))
          (db, acc) = some (db, acc ++ es) := by
  induction ids with
  | nil =>
    intro db es acc h
    simp only [List.mapM_nil, pure, Option.some.injEq] at h
    subst h
    simp
  | cons i t ih =>
    intro db es acc h
    rw [List.mapM_cons] at h
    cases hl : alookup db.node_cache i with
    | none => rw [hl] at h; simp at h
    | some e =>
      rw [hl] at h
      cases hrest : t.mapM (fun i => alookup db.node_cache i) with
      | none => rw [hrest] at h; simp at h
      | some es2 =>
        rw [hrest] at h
        simp only [Option.bind_eq_bind, Option.some_bind, pure,
          Option.some.injEq] at h
        subst h
        rw [List.foldlM_cons]
        dsimp only
        have hq : query_node db i = some (db, e) := by
          unfold query_node
          rw [hl]
        rw [hq]
        have hrec := ih db es2 (acc ++ [e]) hrest
        simpa using hrec

/-- drop_output on an Output node with a relative path and a cached id
succeeds and equals the explicit filter form. -/
theorem drop_output_eq (d : DB) (out : Entry) (s : String)
    (hty : out.type = NodeType.Output) (hp : out.path = some s)
    (hrel : isAbsPath s = false)
    (hc : (alookup d.node_cache out.id).isSome = true) :
    drop_output d out = some (dropOneFilter d out) := by
  unfold drop_output
  rw [hp]
  dsimp only
  rw [if_pos ⟨hty, by simp [hrel]⟩]
  unfold drop_entry
  dsimp only
  rw [if_pos hc]
  unfold dropOneFilter
  rw [hp]

/-- The drop loop of drop_command evaluated over a list of cached Output
entries with pairwise distinct ids. -/
theorem foldDrop (outs : List Entry) :
    ∀ d : DB,
      (∀ e ∈ outs, e.type = NodeType.Output) →
      (∀ e ∈ outs, ∃ s, e.path = some s ∧ isAbsPath s = false) →
      (outs.map (fun e => e.id)).Nodup →
      (∀ e ∈ outs, (alookup d.node_cache e.id).isSome = true) →
      outs.foldlM
          (fun d out =>
            if out.type = NodeType.Output then drop_output d out else none)
          d = some (applyDrops d outs) := by
  induction outs with
  | nil => intro d _ _ _ _; rfl
  | cons out rest ih =>
    intro d h1 h2 h3 h4
    obtain ⟨s, hp, hrel⟩ := h2 out (List.mem_cons_self out rest)
    have hty := h1 out (List.mem_cons_self out rest)
    have hc := h4 out (List.mem_cons_self out rest)
    rw [List.foldlM_cons]
    try dsimp only
    rw [if_pos hty, drop_output_eq d out s hty hp hrel hc]
    have hnotmem : out.id ∉ rest.map (fun e => e.id) := by
      have h5 : ((out :: rest).map (fun e => e.id)).Nodup := h3
      rw [List.map_cons, List.nodup_cons] at h5
      exact h5.1
    have hrec := ih (dropOneFilter d out)
      (fun e he => h1 e (List.mem_cons_of_mem _ he))
      (fun e he => h2 e (List.mem_cons_of_mem _ he))
      (by
        have h5 : ((out :: rest).map (fun e => e.id)).Nodup := h3
        rw [List.map_cons, List.nodup_cons] at h5
        exact h5.2)
      (by
        intro e he
        have hne : e.id ≠ out.id := by
          intro hh
          exact hnotmem (hh ▸ List.mem_map_of_mem _ he)
        have hkeep := alookup_filter_keep d.node_cache
          (fun n => decide (n ≠ out.id)) e.id (by simpa using hne)
        unfold dropOneFilter
        dsimp only
        rw [hkeep]
        exact h4 e (List.mem_cons_of_mem _ he))
    exact hrec

/-- Composing a drop of one key with a drop of a key list is the drop of the
extended key list. -/
theorem filter_notMem_cons {β γ : Type} [DecidableEq γ] (l : List β)
    (f : β → γ) (x : γ) (xs : List γ) :
    (l.filter (fun a => decide (f a ≠ x))).filter
        (fun a => decide (f a ∉ xs)) =
      l.filter (fun a => decide (f a ∉ x :: xs)) := by
  rw [List.filter_filter]
  apply List.filter_congr
  intro a _
  by_cases h1 : f a = x <;> by_cases h2 : f a ∈ xs <;> simp [h1, h2]

/-- The pair version of filter_notMem_cons, for the edge tables. -/
theorem filter_pair_notMem_cons (l : List (Nat × Nat)) (x : Nat)
    (xs : List Nat) :
    (l.filter (fun p => decide (p.1 ≠ x ∧ p.2 ≠ x))).filter
        (fun p => decide (p.1 ∉ xs ∧ p.2 ∉ xs)) =
      l.filter (fun p => decide (p.1 ∉ x :: xs ∧ p.2 ∉ x :: xs)) := by
  rw [List.filter_filter]
  apply List.filter_congr
  intro p _
  by_cases h1 : p.1 = x <;> by_cases h2 : p.2 = x <;>
    by_cases h3 : p.1 ∈ xs <;> by_cases h4 : p.2 ∈ xs <;>
    simp [h1, h2, h3, h4]

/-- applyDrops written as one filter per field: a node survives when its id is
none of the dropped ids, an edge when neither endpoint is, a file when its
path belongs to none of the dropped entries. -/
theorem applyDrops_eq (outs : List Entry) :
    ∀ d : DB,
      applyDrops d outs =
        { nodes := d.nodes.filter
            (fun r => decide (r.id ∉ outs.map (fun e => e.id))),
          edges := d.edges.filter (fun p =>
            decide (p.1 ∉ outs.map (fun e => e.id) ∧
              p.2 ∉ outs.map (fun e => e.id))),
          weak_edges := d.weak_edges.filter (fun p =>
            decide (p.1 ∉ outs.map (fun e => e.id) ∧
              p.2 ∉ outs.map (fun e => e.id))),
          dynamic_edges := d.dynamic_edges.filter (fun p =>
            decide (p.1 ∉ outs.map (fun e => e.id) ∧
              p.2 ∉ outs.map (fun e => e.id))),
          fs := d.fs.filter
            (fun q => decide (q.1 ∉ outs.filterMap (fun e => e.path))),
          node_cache := d.node_cache.filter
            (fun p => decide (p.1 ∉ outs.map (fun e => e.id))),
          path_cache := d.path_cache } := by
  induction outs with
  | nil =>
    intro d
    simp [applyDrops]
  | cons out rest ih =>
    intro d
    show applyDrops (dropOneFilter d out) rest = _
    rw [ih]
    unfold dropOneFilter
    dsimp only
    simp only [List.map_cons]
    cases hp : out.path with
    | none =>
      dsimp only
      rw [@List.filterMap_cons_none Entry String (fun e => e.path) out rest hp]
      congr 1
      · exact filter_notMem_cons d.nodes (fun r => r.id) out.id
          (rest.map (fun e => e.id))
      · exact filter_pair_notMem_cons d.edges out.id (rest.map (fun e => e.id))
      · exact filter_pair_notMem_cons d.weak_edges out.id
          (rest.map (fun e => e.id))
      · exact filter_pair_notMem_cons d.dynamic_edges out.id
          (rest.map (fun e => e.id))
      · exact filter_notMem_cons d.node_cache (fun p => p.1) out.id
          (rest.map (fun e => e.id))
    | some s =>
      dsimp only
      rw [@List.filterMap_cons_some Entry String (fun e => e.path) out rest s hp]
      congr 1
      · exact filter_notMem_cons d.nodes (fun r => r.id) out.id
          (rest.map (fun e => e.id))
      · exact filter_pair_notMem_cons d.edges out.id (rest.map (fun e => e.id))
      · exact filter_pair_notMem_cons d.weak_edges out.id
          (rest.map (fun e => e.id))
      · exact filter_pair_notMem_cons d.dynamic_edges out.id
          (rest.map (fun e => e.id))
      · exact filter_notMem_cons d.fs (fun q => q.1) s
          (rest.filterMap (fun e => e.path))
      · exact filter_notMem_cons d.node_cache (fun p => p.1) out.id
          (rest.map (fun e => e.id))

/-- Dropping a key list and then one more key is the single filter keeping
everything the spec calls not gone. -/
theorem filter_gone_key {β : Type} (l : List β) (f : β → Nat) (x : Nat)
    (xs : List Nat) :
    (l.filter (fun a => decide (f a ∉ xs))).filter
        (fun a => decide (f a ≠ x)) =
      l.filter (fun a => ! decide (f a = x ∨ f a ∈ xs)) := by
  rw [List.filter_filter]
  apply List.filter_congr
  intro a _
  by_cases h1 : f a = x <;> by_cases h2 : f a ∈ xs <;> simp [h1, h2]

/-- The pair version of filter_gone_key, for the edge tables. -/
theorem filter_gone_pair (l : List (Nat × Nat)) (x : Nat) (xs : List Nat) :
    (l.filter (fun p => decide (p.1 ∉ xs ∧ p.2 ∉ xs))).filter
        (fun p => decide (p.1 ≠ x ∧ p.2 ≠ x)) =
      l.filter (fun p =>
        ! decide (p.1 = x ∨ p.1 ∈ xs) && ! decide (p.2 = x ∨ p.2 ∈ xs)) := by
  rw [List.filter_filter]
  apply List.filter_congr
  intro p _
  by_cases h1 : p.1 = x <;> by_cases h2 : p.2 = x <;>
    by_cases h3 : p.1 ∈ xs <;> by_cases h4 : p.2 ∈ xs <;>
    simp [h1, h2, h3, h4]

/-- C7: for every command node of a well-formed database (coherent node cache,
deduplicated tables with unique node ids, no dynamic outgoing edges, every
strong outgoing endpoint an Output row with a relative path, no self edge),
drop_command first removes all the strong outgoing Output nodes, unlinking
each on-disk file, and then drops the command node together with every edge
referencing it or one of those outputs in any of the three edge relations:
it computes exactly drop_command_spec. -/
theorem C7_drop_command_refines_spec (db : DB) (cmd : Entry)
    (Hcache : db.node_cache = db.nodes.map (fun r => (r.id, r)))
    (Hedges : db.edges.Nodup)
    (Hnodyn : ∀ p ∈ db.dynamic_edges, p.2 ≠ cmd.id)
    (Houts : ∀ p ∈ db.edges, p.2 = cmd.id →
      ∃ r ∈ db.nodes, r.id = p.1 ∧ r.type = NodeType.Output ∧
        ∃ s, r.path = some s ∧ isAbsPath s = false)
    (Hids : (db.nodes.map (fun r => r.id)).Nodup)
    (Hcmd : cmd ∈ db.nodes)
    (Hnoself : ∀ p ∈ db.edges, p.2 = cmd.id → p.1 ≠ cmd.id) :
    drop_command db cmd = some (drop_command_spec db cmd) := by
  have houtmem : ∀ i ∈ (db.edges.filter (fun p => decide (p.2 = cmd.id))).map (·.1),
      (∃ r ∈ db.nodes, r.id = i ∧ r.type = NodeType.Output ∧
        ∃ s, r.path = some s ∧ isAbsPath s = false) ∧ i ≠ cmd.id := by
    intro i hi
    obtain ⟨p, hpmem, hpi⟩ := List.mem_map.mp hi
    have hpf := List.mem_filter.mp hpmem
    have hp2 : p.2 = cmd.id := by simpa using hpf.2
    exact ⟨hpi ▸ Houts p hpf.1 hp2, hpi ▸ Hnoself p hpf.1 hp2⟩
  have hnd : ((db.edges.filter (fun p => decide (p.2 = cmd.id))).map (·.1)).Nodup :=
    outIds_nodup db.edges cmd.id Hedges
  have hsome : ∀ i ∈ (db.edges.filter (fun p => decide (p.2 = cmd.id))).map (·.1),
      (alookup db.node_cache i).isSome = true := by
    intro i hi
    obtain ⟨⟨r, hr, hrid, _, _⟩, _⟩ := houtmem i hi
    rw [Hcache, alookup_map_id]
    exact List.find?_isSome.mpr ⟨r, hr, by simpa using hrid⟩
  obtain ⟨es, hes⟩ := mapM_isSome (fun i => alookup db.node_cache i)
    ((db.edges.filter (fun p => decide (p.2 = cmd.id))).map (·.1)) hsome
  have hesF : ((db.edges.filter (fun p => decide (p.2 = cmd.id))).map (·.1)).mapM
      (fun i => db.nodes.find? (fun r => decide (r.id = i))) = some es := by
    have h2 := hes
    rw [Hcache] at h2
    simpa [alookup_map_id] using h2
  obtain ⟨hids2, hmem2, hpaths⟩ := mapM_find_spec db.nodes
    ((db.edges.filter (fun p => decide (p.2 = cmd.id))).map (·.1)) es hesF
  have hprops : ∀ e ∈ es, e.type = NodeType.Output ∧
      ∃ s, e.path = some s ∧ isAbsPath s = false := by
    intro e he
    have hidmem : e.id ∈
        (db.edges.filter (fun p => decide (p.2 = cmd.id))).map (·.1) := by
      rw [← hids2]
      exact List.mem_map_of_mem _ he
    obtain ⟨⟨r, hr, hrid, hrty, hrp⟩, _⟩ := houtmem e.id hidmem
    have hre : e = r :=
      List.inj_on_of_nodup_map Hids (hmem2 e he) hr (by rw [hrid])
    rw [hre]
    exact ⟨hrty, hrp⟩
  have hcached : ∀ e ∈ es, (alookup db.node_cache e.id).isSome = true := by
    intro e he
    apply hsome
    rw [← hids2]
    exact List.mem_map_of_mem _ he
  have hesnd : (es.map (fun e => e.id)).Nodup := by rw [hids2]; exact hnd
  have hdyn : db.dynamic_edges.filter (fun p => decide (p.2 = cmd.id)) = [] :=
    List.filter_eq_nil_iff.mpr (fun p hp => by simpa using Hnodyn p hp)
  have hqo : query_outgoing db cmd.id = some (db, es) := by
    unfold query_outgoing query_node_list
    dsimp only
    rw [hdyn]
    simp only [List.map_nil, List.append_nil]
    have hql := query_node_list_cached
      ((db.edges.filter (fun p => decide (p.2 = cmd.id))).map (·.1)) db es [] hes
    simpa using hql
  have hfold := foldDrop es db
    (fun e he => (hprops e he).1) (fun e he => (hprops e he).2) hesnd hcached
  have hcmdne : cmd.id ∉ es.map (fun e => e.id) := by
    rw [hids2]
    intro hmem
    exact (houtmem cmd.id hmem).2 rfl
  unfold drop_command
  rw [hqo]
  simp only [Option.bind_eq_bind, Option.some_bind]
  try dsimp only
  rw [hfold]
  simp only [Option.some_bind]
  rw [applyDrops_eq]
  unfold drop_entry
  dsimp only
  have hcc : (alookup (db.node_cache.filter
      (fun p => decide (p.1 ∉ es.map (fun e => e.id)))) cmd.id).isSome = true := by
    have hkeep := alookup_filter_keep db.node_cache
      (fun n => decide (n ∉ es.map (fun e => e.id))) cmd.id (by simpa using hcmdne)
    rw [hkeep, Hcache, alookup_map_id]
    exact List.find?_isSome.mpr ⟨cmd, Hcmd, by simp⟩
  rw [if_pos hcc]
  unfold drop_command_spec
  dsimp only
  rw [hids2, hpaths]
  simp only [Option.some.injEq, DB.mk.injEq]
  refine ⟨?_, ?_, ?_, ?_, trivial, ?_, trivial⟩
  · exact filter_gone_key db.nodes (fun r => r.id) cmd.id
      ((db.edges.filter (fun p => decide (p.2 = cmd.id))).map (·.1))
  · exact filter_gone_pair db.edges cmd.id
      ((db.edges.filter (fun p => decide (p.2 = cmd.id))).map (·.1))
  · exact filter_gone_pair db.weak_edges cmd.id
      ((db.edges.filter (fun p => decide (p.2 = cmd.id))).map (·.1))
  · exact filter_gone_pair db.dynamic_edges cmd.id
      ((db.edges.filter (fun p => decide (p.2 = cmd.id))).map (·.1))
  · exact filter_gone_key db.node_cache (fun p => p.1) cmd.id
      ((db.edges.filter (fun p => decide (p.2 = cmd.id))).map (·.1))

/-- C7 witness: the refinement applied to the concrete database c7DB, with
every hypothesis checked by evaluation. -/
theorem C7_drop_command_refines_spec_witness :
    c7DB.edges.Nodup ∧ c7Cmd ∈ c7DB.nodes ∧
      drop_command c7DB c7Cmd = some (drop_command_spec c7DB c7Cmd) :=
  ⟨by decide, by decide,
   C7_drop_command_refines_spec c7DB c7Cmd (by decide) (by decide) (by decide)
     (by decide) (by decide) (by decide) (by decide)⟩

end AMBuild
